import Mathlib

/-!
Shallow embedding of the framework-guard middleware toolkit
(src/core/error.ts, src/core/response.ts, src/core/auth.ts and the
express middleware module: jwtAuth, validate, requestId, logRequests,
errorHandler), together with theorems settling the specification claims.
-/

namespace FrameworkGuard

/-! Path segments of a zod validation issue: strings or array indices. -/

inductive PathKey where
  | str (s : String)
  | num (n : Nat)
deriving DecidableEq, Repr

/-- A zod issue as delivered by `safeParse`: besides `path` and `message`
it carries further fields (modelled by `extra`) that the validate
middleware's projection drops. -/
structure ZodIssue where
  path : List PathKey
  message : String
  extra : String
deriving DecidableEq, Repr

/-- The `{ path, message }` projection recorded in validation details
(`parsed.error.issues.map(i => ({ path: i.path, message: i.message }))`). -/
structure ValidationIssue where
  path : List PathKey
  message : String
deriving DecidableEq, Repr

/-- `projIssue` is the per-issue projection used by the validate middleware. -/
def projIssue (i : ZodIssue) : ValidationIssue :=
  ⟨i.path, i.message⟩

/-- The accumulating details map of the validate middleware, keyed by the
three request sections; a `none` field means the key is absent. -/
structure ValidationDetails where
  body : Option (List ValidationIssue)
  query : Option (List ValidationIssue)
  params : Option (List ValidationIssue)
deriving DecidableEq, Repr

/-- Universe of values stored in an `AppError`'s `details` field: the
repository stores validation detail maps there; `other` stands for any
other structured payload a caller may attach. -/
inductive Details where
  | validation (d : ValidationDetails)
  | other (tag : Nat)
deriving DecidableEq, Repr

/-- `AppError` from src/core/error.ts: message, status (500 by default),
optional code and details.  The constructor sets `name := "AppError"`;
the `name` field is kept because `isAppError` duck-types on it. -/
structure AppError where
  name : String
  message : String
  status : Nat
  code : Option String
  details : Option Details
deriving DecidableEq, Repr

/-- The `AppError` constructor (`new AppError(message, status, code, details)`;
`name` is always initialized to the reserved marker). -/
def AppError.make (message : String) (status : Nat) (code : Option String)
    (details : Option Details) : AppError :=
  ⟨"AppError", message, status, code, details⟩

/-- Universe of JavaScript failure values reaching `toHttpError`:
a genuine `AppError` instance, an `Error` instance that is not an
`AppError` (with its `name` and `message` fields), a plain object with an
optional `name` property, or a non-object primitive. -/
inductive JsVal where
  | appErrorVal (e : AppError)
  | errorVal (name : String) (message : String)
  | objectVal (name : Option String)
  | primVal
deriving DecidableEq, Repr

/-- `isAppError` from src/core/error.ts: `err instanceof AppError`, or a
non-null object whose `name` property is the reserved marker string. -/
def isAppError : JsVal → Bool
  | .appErrorVal _ => true
  | .errorVal n _ => n == "AppError"
  | .objectVal (some n) => n == "AppError"
  | .objectVal none => false
  | .primVal => false

/-- `toHttpError` from src/core/error.ts: recognized faults pass through;
other `Error` instances are wrapped at 500 preserving their message;
everything else becomes a generic 500. -/
def toHttpError (err : JsVal) : JsVal :=
  if isAppError err then err
  else
    match err with
    | .errorVal _ msg => .appErrorVal (AppError.make msg 500 none none)
    | _ => .appErrorVal (AppError.make "Internal Server Error" 500 none none)

/-- JavaScript property read `x.message` on a value of the `JsVal`
universe (`none` is `undefined`). -/
def JsVal.messageField : JsVal → Option String
  | .appErrorVal e => some e.message
  | .errorVal _ m => some m
  | _ => none

/-- JavaScript property read `x.status`. -/
def JsVal.statusField : JsVal → Option Nat
  | .appErrorVal e => some e.status
  | _ => none

/-- JavaScript property read `x.code`. -/
def JsVal.codeField : JsVal → Option String
  | .appErrorVal e => e.code
  | _ => none

/-- JavaScript property read `x.details`. -/
def JsVal.detailsField : JsVal → Option Details
  | .appErrorVal e => e.details
  | _ => none

/-- Body of the error envelope (`message` is `Option` because a
duck-typed fault may lack the field). -/
structure ErrorBody where
  message : Option String
  code : Option String
  details : Option Details
deriving DecidableEq, Repr

/-- The error envelope from src/core/response.ts: `success` is always
`false` and the error body carries message/code/details. -/
structure ErrorResponse where
  success : Bool
  error : ErrorBody
deriving DecidableEq, Repr

/-- `jsonError(message, code, details)` from src/core/response.ts. -/
def jsonError (message : Option String) (code : Option String)
    (details : Option Details) : ErrorResponse :=
  ⟨false, ⟨message, code, details⟩⟩

/-- `httpErr.status || 500`: an absent (`undefined`) or zero status is
replaced by 500, any other number is kept. -/
def statusOr500 : Option Nat → Nat
  | some n => if n = 0 then 500 else n
  | none => 500

/-- The fault-rendering terminal `errorHandler` from the express module:
normalizes via `toHttpError`, then writes status `httpErr.status || 500`
and body `jsonError(httpErr.message, httpErr.code, httpErr.details)`.
Returns the written status and envelope. -/
def errorHandler (err : JsVal) : Nat × ErrorResponse :=
  let httpErr := toHttpError err
  (statusOr500 httpErr.statusField,
   jsonError httpErr.messageField httpErr.codeField httpErr.detailsField)

/-- Discriminates the `Error`-instance case of the failure-value
universe (values the runtime recognizes with `instanceof Error`). -/
def isErrorInstance : JsVal → Bool
  | .errorVal _ _ => true
  | _ => false

/-- Error code constants from src/core/codes.ts. -/
def ErrorCodes.UNAUTHORIZED : String := "ERR_UNAUTHORIZED"

/-- Error code for a credential that fails verification. -/
def ErrorCodes.INVALID_TOKEN : String := "ERR_INVALID_TOKEN"

/-- Error code written by the not-found terminal. -/
def ErrorCodes.NOT_FOUND : String := "ERR_NOT_FOUND"

/-- Error code for schema validation failures. -/
def ErrorCodes.VALIDATION : String := "ERR_VALIDATION"

/-- The observable effect of a middleware's single `next(...)` call:
`nextOk` for `next()` (continue down the chain) and `nextErr e` for
`next(e)` (hand the fault `e` to the propagation channel). -/
inductive NextCall where
  | nextOk
  | nextErr (e : AppError)
deriving DecidableEq, Repr

/-- Outcome of a zod schema's `safeParse` on one input: the parsed and
coerced `data` on success, the issue list on failure; `raised` models a
schema that throws instead of returning a result (the defensive catch
path of the validate middleware). -/
inductive SafeParseResult (V : Type) where
  | success (data : V)
  | failure (issues : List ZodIssue)
  | raised
deriving Repr

/-- The validate middleware's configuration: up to three independent
schemas for body, query and params; an omitted schema is `none`. -/
structure ValidateSchemas (V : Type) where
  body : Option (V → SafeParseResult V)
  query : Option (V → SafeParseResult V)
  params : Option (V → SafeParseResult V)

/-- The three request sections the validate middleware may replace. -/
structure ValReq (V : Type) where
  body : V
  query : V
  params : V
deriving DecidableEq, Repr

/-- One section step of `validateMiddleware`: run the configured
schema's `safeParse` on the section's current value; on success the
section is replaced by the coerced data, on failure the projected issues
are recorded and the value kept; `none` propagates a raised exception to
the middleware's catch. An unconfigured section is untouched. -/
def applySection {V : Type} (schema : Option (V → SafeParseResult V)) (current : V) :
    Option (V × Option (List ValidationIssue)) :=
  match schema with
  | none => some (current, none)
  | some s =>
    match s current with
    | .success d => some (d, none)
    | .failure issues => some (current, some (issues.map projIssue))
    | .raised => none

/-- `validate(schemas)` middleware from the express module: sections are
processed in the fixed order body, query, params inside one try block;
a failing section records its issues in the details map without stopping
the other sections; a raised exception is caught and converted to a bare
400/VALIDATION fault; after all sections, a non-empty details map is
propagated as one 400/VALIDATION fault carrying it, otherwise `next()`. -/
def validateRun {V : Type} (schemas : ValidateSchemas V) (req : ValReq V) :
    ValReq V × NextCall :=
  match applySection schemas.body req.body with
  | none => (req, .nextErr (AppError.make "Validation failed" 400 (some ErrorCodes.VALIDATION) none))
  | some (b, db) =>
    let req1 : ValReq V := ⟨b, req.query, req.params⟩
    match applySection schemas.query req1.query with
    | none => (req1, .nextErr (AppError.make "Validation failed" 400 (some ErrorCodes.VALIDATION) none))
    | some (q, dq) =>
      let req2 : ValReq V := ⟨b, q, req.params⟩
      match applySection schemas.params req2.params with
      | none => (req2, .nextErr (AppError.make "Validation failed" 400 (some ErrorCodes.VALIDATION) none))
      | some (p, dp) =>
        let req3 : ValReq V := ⟨b, q, p⟩
        if db.isSome || dq.isSome || dp.isSome then
          (req3, .nextErr (AppError.make "Validation failed" 400 (some ErrorCodes.VALIDATION)
            (some (Details.validation ⟨db, dq, dp⟩))))
        else (req3, .nextOk)

/-- Observer: did the configured schema raise on this value? -/
def sectionRaised {V : Type} (schema : Option (V → SafeParseResult V)) (v : V) : Bool :=
  match schema with
  | none => false
  | some s =>
    match s v with
    | .raised => true
    | _ => false

/-- Observer: the projected issues the section contributes to the
details map (`none` when the section is unconfigured or succeeds). -/
def sectionIssues {V : Type} (schema : Option (V → SafeParseResult V)) (v : V) :
    Option (List ValidationIssue) :=
  match schema with
  | none => none
  | some s =>
    match s v with
    | .failure issues => some (issues.map projIssue)
    | _ => none

/-- Observer: the section's value after the middleware ran — the coerced
data when the schema succeeds, the original value otherwise. -/
def sectionValue {V : Type} (schema : Option (V → SafeParseResult V)) (v : V) : V :=
  match schema with
  | none => v
  | some s =>
    match s v with
    | .success d => d
    | _ => v

/-- Observer: the section passes — it is unconfigured or its schema
succeeds on the value. -/
def sectionOk {V : Type} (schema : Option (V → SafeParseResult V)) (v : V) : Bool :=
  match schema with
  | none => true
  | some s =>
    match s v with
    | .success _ => true
    | _ => false

/-- The request-context slice the auth gate touches: the dynamic
extension properties (payload type `P`), read through shadowing
association-list semantics like JavaScript property assignment. -/
structure JwtReq (P : Type) where
  props : List (String × P)
deriving DecidableEq, Repr

/-- JavaScript property assignment `req[k] = v` (later writes shadow
earlier ones; all other keys keep their values). -/
def JwtReq.setProp {P : Type} (req : JwtReq P) (k : String) (v : P) : JwtReq P :=
  ⟨(k, v) :: req.props⟩

/-- JavaScript property read `req[k]`. -/
def JwtReq.getProp {P : Type} (req : JwtReq P) (k : String) : Option P :=
  (req.props.find? (fun kv => kv.1 == k)).map Prod.snd

/-- Outcome of `verifyJwt` (src/core/auth.ts): the decoded payload on
success, or a thrown `TokenError` whose internal cause (signature
mismatch, expiry, malformed structure) is carried by `cause`. -/
inductive VerifyOutcome (P : Type) where
  | verified (payload : P)
  | failed (cause : String)
deriving DecidableEq, Repr

/-- The `if (!token)` truthiness gate on the extracted token: a null
result and the empty string both count as no token. -/
def tokenOf : Option String → Option String
  | none => none
  | some s => if s = "" then none else some s

/-- jwtAuth configuration (defaults: `credentialsRequired = true`,
`requestProperty = "user"`); `secret`, `algorithms` and the swappable
`getToken` are abstracted into the `verify` and `getToken` capabilities
of `jwtAuthRun`. -/
structure JwtAuthConfig where
  credentialsRequired : Bool
  requestProperty : String
deriving DecidableEq, Repr

/-- `jwtAuthMiddleware` from the express module: extract a token; if
falsy, reject 401/UNAUTHORIZED when credentials are required, otherwise
pass through unchanged; if present, verify it: on success write the
decoded payload to the configured request property and continue, on any
verification failure reject 401/INVALID_TOKEN. -/
def jwtAuthRun {P : Type} (cfg : JwtAuthConfig)
    (getToken : JwtReq P → Option String)
    (verify : String → VerifyOutcome P)
    (req : JwtReq P) : JwtReq P × NextCall :=
  match tokenOf (getToken req) with
  | none =>
    if cfg.credentialsRequired then
      (req, .nextErr (AppError.make "Unauthorized" 401 (some ErrorCodes.UNAUTHORIZED) none))
    else (req, .nextOk)
  | some token =>
    match verify token with
    | .verified payload => (req.setProp cfg.requestProperty payload, .nextOk)
    | .failed _ =>
        (req, .nextErr (AppError.make "Invalid token" 401 (some ErrorCodes.INVALID_TOKEN) none))

/-- The whitespace class shared by JavaScript `trim()` and the regex
class `\s` in the bearer pattern. -/
def wsChar (c : Char) : Bool := c.isWhitespace

/-- JavaScript `s.trim()` over the character sequence: strip leading and
trailing whitespace. -/
def jsTrim (cs : List Char) : List Char :=
  ((cs.dropWhile wsChar).reverse.dropWhile wsChar).reverse

/-- The regex test-and-replace pair on `/^bearer\s+/i` from
`getTokenFromAuthHeader`: when the characters start with the six letters
of "bearer" case-insensitively followed by at least one whitespace
character, return what follows the greedily matched whitespace run,
otherwise `none` (no match). -/
def stripBearer (cs : List Char) : Option (List Char) :=
  match cs with
  | c1 :: c2 :: c3 :: c4 :: c5 :: c6 :: rest0 =>
    if c1.toLower == 'b' && c2.toLower == 'e' && c3.toLower == 'a'
        && c4.toLower == 'r' && c5.toLower == 'e' && c6.toLower == 'r' then
      match rest0 with
      | c7 :: _ => if wsChar c7 then some (rest0.dropWhile wsChar) else none
      | [] => none
    else none
  | _ => none

/-- `getTokenFromAuthHeader` from src/core/auth.ts: a falsy header
(absent or the empty string) yields no token; otherwise the value is
trimmed; a case-insensitive bearer prefix, when it matches, is stripped
and the (re-trimmed) remainder returned; otherwise the whole trimmed
value is the token when non-empty, else no token. -/
def getTokenFromAuthHeader (headerValue : Option String) : Option String :=
  match headerValue with
  | none => none
  | some s =>
    if s = "" then none
    else
      let trimmed := jsTrim s.toList
      match stripBearer trimmed with
      | some rest => some (String.mk (jsTrim rest))
      | none => if trimmed.length > 0 then some (String.mk trimmed) else none

/-- A JavaScript header value: a plain string or an array of strings
(node delivers most repeated headers joined, but set-cookie style values
arrive as arrays, so the source handles both). -/
inductive HVal where
  | str (s : String)
  | arr (ss : List String)
deriving DecidableEq, Repr

/-- Request-context slice used by the correlation and access-log
interceptors: inbound headers (node stores their names lowercased),
dynamic extension properties, and the request line fields. -/
structure ReqCtx where
  headers : List (String × HVal)
  props : List (String × HVal)
  method : String
  url : String
  originalUrl : Option String
deriving DecidableEq, Repr

/-- Raw lookup in the (lowercased-key) header map. -/
def ReqCtx.hdrLookup (req : ReqCtx) (name : String) : Option HVal :=
  (req.headers.find? (fun kv => kv.1 == name)).map Prod.snd

/-- JavaScript `name.toLowerCase()` on the character sequence. -/
def jsToLower (s : String) : String :=
  String.mk (s.toList.map Char.toLower)

/-- Express `req.get(name)`: case-insensitive read of the raw header
value (lowercases the name and indexes the header map). -/
def ReqCtx.expressGet (req : ReqCtx) (name : String) : Option HVal :=
  req.hdrLookup (jsToLower name)

/-- JavaScript truthiness of a possibly-absent header value: `undefined`
and the empty string are falsy, arrays are always truthy. -/
def truthyH : Option HVal → Bool
  | none => false
  | some (.str s) => !(s == "")
  | some (.arr _) => true

/-- `readHeaderValue` from the express module: first `req.get(name)`
(returned when truthy), otherwise the raw `req.headers[name.toLowerCase()]`
entry — first element when it is an array, the string itself when a
string, else absent. -/
def readHeaderValue (req : ReqCtx) (name : String) : Option HVal :=
  let direct := req.expressGet name
  if truthyH direct then direct
  else
    match req.hdrLookup (jsToLower name) with
    | some (.arr ss) => ss.head?.map HVal.str
    | some (.str s) => some (.str s)
    | none => none

/-- JavaScript property assignment on the request context. -/
def ReqCtx.setProp (req : ReqCtx) (k : String) (v : HVal) : ReqCtx :=
  ⟨req.headers, (k, v) :: req.props, req.method, req.url, req.originalUrl⟩

/-- JavaScript property read on the request context. -/
def ReqCtx.getProp (req : ReqCtx) (k : String) : Option HVal :=
  (req.props.find? (fun kv => kv.1 == k)).map Prod.snd

/-- Outbound response header state touched by `res.setHeader`. -/
structure ResState where
  headers : List (String × HVal)
deriving DecidableEq, Repr

/-- `res.setHeader(name, v)` with shadowing write semantics. -/
def ResState.setHeader (res : ResState) (name : String) (v : HVal) : ResState :=
  ⟨(name, v) :: res.headers⟩

/-- requestId configuration (defaults: header "X-Request-Id",
`trustIncoming = true`, `requestProperty = "id"`). -/
structure RequestIdConfig where
  header : String
  trustIncoming : Bool
  requestProperty : String
deriving DecidableEq, Repr

/-- `requestIdMiddleware` from the express module: when trusting
incoming values, read the configured header; take the header value when
one was read, otherwise the generator output (`incoming ?? generator()`,
`generated` being the freshly minted id); write the id to the configured
request property, echo it on the outbound header, continue. -/
def requestIdRun (cfg : RequestIdConfig) (generated : String) (req : ReqCtx)
    (res : ResState) : ReqCtx × ResState × NextCall :=
  let incoming := if cfg.trustIncoming then readHeaderValue req cfg.header else none
  let id := incoming.getD (HVal.str generated)
  (req.setProp cfg.requestProperty id, res.setHeader cfg.header id, .nextOk)

/-- The structured payload emitted by the access-log interceptor. -/
structure LogRecord where
  id : Option HVal
  method : String
  url : String
  status : Nat
  duration : Int
deriving DecidableEq, Repr

/-- Body of the one-shot finish listener registered by
`logRequestsMiddleware`: at finish time it computes the elapsed duration,
reads the final status code, resolves the id from the request property
falling back to the header, and builds the record logged with the
message tag. -/
def logFinishRecord (header : String) (req : ReqCtx) (start finishTime : Int)
    (status : Nat) : LogRecord :=
  ⟨(req.getProp "id") <|> readHeaderValue req header,
   req.method, req.originalUrl.getD req.url, status, finishTime - start⟩

/-- `logRequestsMiddleware` from the express module: records the start
timestamp, registers exactly one finish listener on the response and
continues immediately; the host fires the finish event once per
completed response, handing each registered listener the finish time and
the final status code, and the listener emits one record with message
tag "request". -/
def logRequestsRun (header : String) (req : ReqCtx) (start : Int) :
    List (Int → Nat → LogRecord × String) × NextCall :=
  ([fun finishTime status => (logFinishRecord header req start finishTime status, "request")],
   .nextOk)

end FrameworkGuard

namespace FrameworkGuard

/-- Recognized faults pass through `toHttpError` unchanged. -/
theorem toHttpError_of_isAppError (x : JsVal) (h : isAppError x = true) :
    toHttpError x = x := by
  simp [toHttpError, h]

/-- The result of `toHttpError` always satisfies the fault identity
predicate. -/
theorem isAppError_toHttpError (x : JsVal) :
    isAppError (toHttpError x) = true := by
  by_cases h : isAppError x = true
  · rw [toHttpError_of_isAppError x h]; exact h
  · cases x with
    | appErrorVal e => simp [isAppError] at h
    | errorVal n m =>
        have hn : ¬n = "AppError" := by simpa [isAppError] using h
        simp [toHttpError, isAppError, hn, AppError.make]
    | objectVal n =>
        cases n <;> simp_all [toHttpError, isAppError, AppError.make]
    | primVal =>
        simp [toHttpError, isAppError, AppError.make]

/-- Claim C6: normalization is idempotent — `toHttpError (toHttpError x)`
equals `toHttpError x` for every input, `toHttpError` always returns a
value satisfying the fault identity predicate `isAppError`, and values
already recognized as faults are returned unchanged. -/
theorem claim_C6_toHttpError_idempotent (x : JsVal) :
    toHttpError (toHttpError x) = toHttpError x
      ∧ isAppError (toHttpError x) = true
      ∧ (isAppError x = true → toHttpError x = x) := by
  refine ⟨?_, isAppError_toHttpError x, fun h => toHttpError_of_isAppError x h⟩
  exact toHttpError_of_isAppError _ (isAppError_toHttpError x)

/-- Witness for claim C6 at concrete inputs: an already-recognized fault
is returned unchanged, and normalizing a primitive twice equals
normalizing it once. -/
theorem claim_C6_witness :
    isAppError (JsVal.appErrorVal (AppError.make "boom" 418 none none)) = true
      ∧ toHttpError (JsVal.appErrorVal (AppError.make "boom" 418 none none))
          = JsVal.appErrorVal (AppError.make "boom" 418 none none)
      ∧ toHttpError (toHttpError JsVal.primVal) = toHttpError JsVal.primVal := by
  refine ⟨by decide, ?_, ?_⟩
  · exact (claim_C6_toHttpError_idempotent _).2.2 (by decide)
  · exact (claim_C6_toHttpError_idempotent JsVal.primVal).1

/-- Counterexample to claim C1 as stated: a plain `Error` instance is not
recognized as a fault and is rendered at status 500 (so it falls in the
claim's `Internal` class), yet the rendered envelope's message is the
error's own internal message, not a generic string — `toHttpError`
wraps `Error` instances preserving their message. -/
theorem claim_C1_counterexample :
    isAppError (JsVal.errorVal "Error" "connect ECONNREFUSED 10.0.0.5:5432") = false
      ∧ (errorHandler (JsVal.errorVal "Error" "connect ECONNREFUSED 10.0.0.5:5432")).1 = 500
      ∧ (errorHandler (JsVal.errorVal "Error" "connect ECONNREFUSED 10.0.0.5:5432")).2.error.message
          = some "connect ECONNREFUSED 10.0.0.5:5432"
      ∧ ("connect ECONNREFUSED 10.0.0.5:5432" : String) ≠ "Internal Server Error" := by
  decide

/-- Claim C1 (amended): for every failure value that is neither
recognized as a fault nor an `Error` instance, the rendered response is
status 500 with the generic message, so no internal message of such a
value can appear in the envelope.  (`Error` instances, excluded here,
have their message preserved by `toHttpError`.) -/
theorem claim_C1_internal_message_generic (x : JsVal)
    (h1 : isAppError x = false) (h2 : isErrorInstance x = false) :
    errorHandler x = (500, jsonError (some "Internal Server Error") none none) := by
  cases x with
  | appErrorVal e => simp [isAppError] at h1
  | errorVal n m => simp [isErrorInstance] at h2
  | objectVal n =>
      cases n with
      | none =>
          simp [errorHandler, toHttpError, isAppError, AppError.make, jsonError,
            statusOr500, JsVal.messageField, JsVal.statusField, JsVal.codeField,
            JsVal.detailsField]
      | some s =>
          have hs : ¬s = "AppError" := by simpa [isAppError] using h1
          simp [errorHandler, toHttpError, isAppError, hs, AppError.make, jsonError,
            statusOr500, JsVal.messageField, JsVal.statusField, JsVal.codeField,
            JsVal.detailsField]
  | primVal =>
      simp [errorHandler, toHttpError, isAppError, AppError.make, jsonError,
        statusOr500, JsVal.messageField, JsVal.statusField, JsVal.codeField,
        JsVal.detailsField]

/-- Witness for the amended claim C1 at a concrete non-object failure
value. -/
theorem claim_C1_witness :
    isAppError JsVal.primVal = false ∧ isErrorInstance JsVal.primVal = false
      ∧ errorHandler JsVal.primVal
          = (500, jsonError (some "Internal Server Error") none none) :=
  ⟨by decide, by decide,
    claim_C1_internal_message_generic JsVal.primVal (by decide) (by decide)⟩

/-- A non-raising section step yields its observer decomposition. -/
theorem applySection_eq {V : Type} (schema : Option (V → SafeParseResult V)) (v : V)
    (h : sectionRaised schema v = false) :
    applySection schema v = some (sectionValue schema v, sectionIssues schema v) := by
  cases schema with
  | none => rfl
  | some s =>
      cases hs : s v <;>
        simp_all [applySection, sectionRaised, sectionValue, sectionIssues, hs]

/-- When no configured schema raises, the validate middleware replaces
each section by its after-value and branches on the accumulated issues. -/
theorem validateRun_no_raise {V : Type} (schemas : ValidateSchemas V) (req : ValReq V)
    (hb : sectionRaised schemas.body req.body = false)
    (hq : sectionRaised schemas.query req.query = false)
    (hp : sectionRaised schemas.params req.params = false) :
    validateRun schemas req =
      (⟨sectionValue schemas.body req.body,
        sectionValue schemas.query req.query,
        sectionValue schemas.params req.params⟩,
       if (sectionIssues schemas.body req.body).isSome
            || (sectionIssues schemas.query req.query).isSome
            || (sectionIssues schemas.params req.params).isSome then
         NextCall.nextErr (AppError.make "Validation failed" 400 (some ErrorCodes.VALIDATION)
           (some (Details.validation
             ⟨sectionIssues schemas.body req.body,
              sectionIssues schemas.query req.query,
              sectionIssues schemas.params req.params⟩)))
       else NextCall.nextOk) := by
  simp only [validateRun, applySection_eq schemas.body req.body hb,
    applySection_eq schemas.query req.query hq,
    applySection_eq schemas.params req.params hp]
  split <;> simp_all

/-- A passing section neither raises nor contributes issues. -/
theorem sectionOk_elim {V : Type} (schema : Option (V → SafeParseResult V)) (v : V)
    (h : sectionOk schema v = true) :
    sectionRaised schema v = false ∧ sectionIssues schema v = none := by
  cases schema with
  | none => exact ⟨rfl, rfl⟩
  | some s =>
      cases hs : s v <;>
        simp_all [sectionOk, sectionRaised, sectionIssues, hs]

/-- Claim C2: when every configured schema returns a result (no raise),
all sections are attempted without short-circuit, every failing
section's projected `{path, message}` issues appear under that section's
key of one accumulating details map, and if at least one section failed,
exactly one fault with status 400, code ERR_VALIDATION and the
accumulated details is handed to the fault channel. -/
theorem claim_C2_validation_accumulates {V : Type}
    (schemas : ValidateSchemas V) (req : ValReq V)
    (hb : sectionRaised schemas.body req.body = false)
    (hq : sectionRaised schemas.query req.query = false)
    (hp : sectionRaised schemas.params req.params = false)
    (hfail : (sectionIssues schemas.body req.body).isSome = true
        ∨ (sectionIssues schemas.query req.query).isSome = true
        ∨ (sectionIssues schemas.params req.params).isSome = true) :
    (validateRun schemas req).2 =
      NextCall.nextErr (AppError.make "Validation failed" 400 (some ErrorCodes.VALIDATION)
        (some (Details.validation
          ⟨sectionIssues schemas.body req.body,
           sectionIssues schemas.query req.query,
           sectionIssues schemas.params req.params⟩))) := by
  rw [validateRun_no_raise schemas req hb hq hp]
  have hcond : ((sectionIssues schemas.body req.body).isSome
      || (sectionIssues schemas.query req.query).isSome
      || (sectionIssues schemas.params req.params).isSome) = true := by
    rcases hfail with h | h | h <;> simp [h]
  simp [hcond]

/-- Schema set for the C2 witness: a failing body schema, no query
schema, and a succeeding params schema. -/
def c2Schemas : ValidateSchemas Nat :=
  ⟨some (fun _ => SafeParseResult.failure
      [⟨[PathKey.str "message"], "String must contain at least 3 character(s)", "too_small"⟩]),
   none,
   some (fun v => SafeParseResult.success (v + 1))⟩

/-- Request for the C2 witness. -/
def c2Req : ValReq Nat := ⟨0, 5, 7⟩

/-- Witness for claim C2: with a failing body schema and a succeeding
params schema, one 400/ERR_VALIDATION fault carrying the body issues is
propagated. -/
theorem claim_C2_witness :
    (validateRun c2Schemas c2Req).2 =
      NextCall.nextErr (AppError.make "Validation failed" 400 (some ErrorCodes.VALIDATION)
        (some (Details.validation
          ⟨some [⟨[PathKey.str "message"], "String must contain at least 3 character(s)"⟩],
           none, none⟩))) := by
  have h := claim_C2_validation_accumulates c2Schemas c2Req rfl rfl rfl
    (Or.inl rfl)
  simpa [c2Schemas, c2Req, sectionIssues, projIssue] using h

/-- Claim C3: when every configured schema succeeds, each configured
section is replaced wholesale by its parsed value, unconfigured sections
are untouched, and the middleware continues with no fault. -/
theorem claim_C3_success_replaces {V : Type}
    (schemas : ValidateSchemas V) (req : ValReq V)
    (hb : sectionOk schemas.body req.body = true)
    (hq : sectionOk schemas.query req.query = true)
    (hp : sectionOk schemas.params req.params = true) :
    validateRun schemas req =
      (⟨sectionValue schemas.body req.body,
        sectionValue schemas.query req.query,
        sectionValue schemas.params req.params⟩, NextCall.nextOk)
      ∧ (schemas.body = none → sectionValue schemas.body req.body = req.body)
      ∧ (schemas.query = none → sectionValue schemas.query req.query = req.query)
      ∧ (schemas.params = none → sectionValue schemas.params req.params = req.params) := by
  obtain ⟨hb1, hb2⟩ := sectionOk_elim schemas.body req.body hb
  obtain ⟨hq1, hq2⟩ := sectionOk_elim schemas.query req.query hq
  obtain ⟨hp1, hp2⟩ := sectionOk_elim schemas.params req.params hp
  refine ⟨?_, ?_, ?_, ?_⟩
  · rw [validateRun_no_raise schemas req hb1 hq1 hp1]
    simp [hb2, hq2, hp2]
  · intro h; simp [sectionValue, h]
  · intro h; simp [sectionValue, h]
  · intro h; simp [sectionValue, h]

/-- Schema set for the C3 witness: a coercing body schema (models
string-to-number coercion by mapping the value), no query schema, and a
default-filling params schema. -/
def c3Schemas : ValidateSchemas Nat :=
  ⟨some (fun v => SafeParseResult.success (v * 10)),
   none,
   some (fun _ => SafeParseResult.success 42)⟩

/-- Request for the C3 witness. -/
def c3Req : ValReq Nat := ⟨4, 5, 7⟩

/-- Witness for claim C3: the body is replaced by the coerced value 40,
the unconfigured query keeps 5, params is replaced by the default 42 and
the middleware continues with no fault. -/
theorem claim_C3_witness :
    validateRun c3Schemas c3Req = (⟨40, 5, 42⟩, NextCall.nextOk) := by
  have h := (claim_C3_success_replaces c3Schemas c3Req rfl rfl rfl).1
  simpa [c3Schemas, c3Req, sectionValue] using h

/-- Claim C4: when no token is extracted, the auth gate propagates one
401/ERR_UNAUTHORIZED fault if credentials are required, and otherwise
continues to the next interceptor leaving the request context
unchanged. -/
theorem claim_C4_missing_token {P : Type} (cfg : JwtAuthConfig)
    (getToken : JwtReq P → Option String) (verify : String → VerifyOutcome P)
    (req : JwtReq P) (h : tokenOf (getToken req) = none) :
    jwtAuthRun cfg getToken verify req =
      if cfg.credentialsRequired then
        (req, NextCall.nextErr
          (AppError.make "Unauthorized" 401 (some ErrorCodes.UNAUTHORIZED) none))
      else (req, NextCall.nextOk) := by
  simp [jwtAuthRun, h]

/-- Witness for claim C4 at a token-less request with required
credentials. -/
theorem claim_C4_witness :
    tokenOf ((fun _ => (none : Option String)) (⟨[]⟩ : JwtReq Nat)) = none
      ∧ jwtAuthRun ⟨true, "user"⟩ (fun _ => none)
          (fun _ => VerifyOutcome.failed "unused") (⟨[]⟩ : JwtReq Nat)
        = (⟨[]⟩, NextCall.nextErr
            (AppError.make "Unauthorized" 401 (some ErrorCodes.UNAUTHORIZED) none)) := by
  refine ⟨rfl, ?_⟩
  have h := claim_C4_missing_token ⟨true, "user"⟩ (fun _ => none)
    (fun _ => VerifyOutcome.failed "unused") (⟨[]⟩ : JwtReq Nat) rfl
  simpa using h

/-- Claim C5: with a token present, successful verification writes the
decoded payload to the configured request property and continues; any
verification failure propagates one 401/ERR_INVALID_TOKEN fault whose
rendered content does not depend on the failure cause. -/
theorem claim_C5_token_verification {P : Type} (cfg : JwtAuthConfig)
    (getToken : JwtReq P → Option String) (verify : String → VerifyOutcome P)
    (req : JwtReq P) (token : String)
    (h : tokenOf (getToken req) = some token) :
    (∀ p : P, verify token = VerifyOutcome.verified p →
        jwtAuthRun cfg getToken verify req
            = (req.setProp cfg.requestProperty p, NextCall.nextOk)
          ∧ (req.setProp cfg.requestProperty p).getProp cfg.requestProperty = some p)
      ∧ (∀ c : String, verify token = VerifyOutcome.failed c →
        jwtAuthRun cfg getToken verify req =
          (req, NextCall.nextErr
            (AppError.make "Invalid token" 401 (some ErrorCodes.INVALID_TOKEN) none))) := by
  constructor
  · intro p hp
    constructor
    · simp [jwtAuthRun, h, hp]
    · simp [JwtReq.getProp, JwtReq.setProp]
  · intro c hc
    simp [jwtAuthRun, h, hc]

/-- Verifier for the C5 witness: accepts exactly the token "good". -/
def c5Verify : String → VerifyOutcome Nat :=
  fun t => if t = "good" then VerifyOutcome.verified 99 else VerifyOutcome.failed "bad signature"

/-- Witness for claim C5: a verified token writes the payload under
"user" and continues. -/
theorem claim_C5_witness :
    tokenOf (some "good") = some "good"
      ∧ c5Verify "good" = VerifyOutcome.verified 99
      ∧ jwtAuthRun ⟨true, "user"⟩ (fun _ => some "good") c5Verify (⟨[]⟩ : JwtReq Nat)
          = (⟨[("user", 99)]⟩, NextCall.nextOk) := by
  refine ⟨rfl, by simp [c5Verify], ?_⟩
  have h := ((claim_C5_token_verification ⟨true, "user"⟩ (fun _ => some "good") c5Verify
    (⟨[]⟩ : JwtReq Nat) "good" rfl).1 99 (by simp [c5Verify])).1
  simpa [JwtReq.setProp] using h

/-- Claim C10: on every path where the auth gate propagates a fault, the
request context is returned entirely unchanged — the request property is
written only on the successful-verification branch. -/
theorem claim_C10_fault_leaves_request_unchanged {P : Type} (cfg : JwtAuthConfig)
    (getToken : JwtReq P → Option String) (verify : String → VerifyOutcome P)
    (req req' : JwtReq P) (e : AppError)
    (h : jwtAuthRun cfg getToken verify req = (req', NextCall.nextErr e)) :
    req' = req := by
  unfold jwtAuthRun at h
  cases htok : tokenOf (getToken req) with
  | none =>
      rw [htok] at h
      by_cases hc : cfg.credentialsRequired
      · simp [hc] at h
        exact h.1.symm
      · simp [hc] at h
  | some token =>
      rw [htok] at h
      cases hv : verify token with
      | verified p => simp [hv] at h
      | failed c =>
          simp [hv] at h
          exact h.1.symm

/-- Witness for claim C10: a request rejected for a failed verification
comes back with its property list untouched. -/
theorem claim_C10_witness :
    (⟨[("k", 1)]⟩ : JwtReq Nat) = ⟨[("k", 1)]⟩
      ∧ jwtAuthRun ⟨true, "user"⟩ (fun _ => some "tok")
          (fun _ => VerifyOutcome.failed "expired") (⟨[("k", 1)]⟩ : JwtReq Nat)
        = (⟨[("k", 1)]⟩, NextCall.nextErr
            (AppError.make "Invalid token" 401 (some ErrorCodes.INVALID_TOKEN) none)) := by
  refine ⟨?_, by rfl⟩
  exact claim_C10_fault_leaves_request_unchanged ⟨true, "user"⟩ (fun _ => some "tok")
    (fun _ => VerifyOutcome.failed "expired") ⟨[("k", 1)]⟩ ⟨[("k", 1)]⟩
    (AppError.make "Invalid token" 401 (some ErrorCodes.INVALID_TOKEN) none) (by rfl)

/-- A header present in the inbound map is returned verbatim by
`readHeaderValue` (both for strings, including the empty string via the
raw fallback, and for arrays, which are truthy). -/
theorem readHeaderValue_of_present (req : ReqCtx) (name : String) (v : HVal)
    (h : req.hdrLookup (jsToLower name) = some v) :
    readHeaderValue req name = some v := by
  cases v with
  | str s =>
      by_cases hs : s = ""
      · simp [readHeaderValue, ReqCtx.expressGet, h, truthyH, hs]
      · simp [readHeaderValue, ReqCtx.expressGet, h, truthyH, hs]
  | arr ss => simp [readHeaderValue, ReqCtx.expressGet, h, truthyH]

/-- Claim C8: with `trustIncoming` and the configured header present on
the inbound request, its value is used verbatim as the id, written to
the configured request property and echoed on the outbound header; with
`trustIncoming = false` the id is always the generator output, never the
inbound value, even when one is present. -/
theorem claim_C8_correlation_id (cfg : RequestIdConfig) (generated : String)
    (req : ReqCtx) (res : ResState) :
    (cfg.trustIncoming = true →
      ∀ v, req.hdrLookup (jsToLower cfg.header) = some v →
        requestIdRun cfg generated req res
          = (req.setProp cfg.requestProperty v, res.setHeader cfg.header v, NextCall.nextOk))
      ∧ (cfg.trustIncoming = false →
        requestIdRun cfg generated req res
          = (req.setProp cfg.requestProperty (HVal.str generated),
             res.setHeader cfg.header (HVal.str generated), NextCall.nextOk)) := by
  constructor
  · intro ht v hv
    simp [requestIdRun, ht, readHeaderValue_of_present req cfg.header v hv]
  · intro hf
    simp [requestIdRun, hf]

/-- Inbound request for the C8 witness, carrying the correlation header. -/
def c8Req : ReqCtx := ⟨[("x-request-id", HVal.str "abc-123")], [], "GET", "/ping", none⟩

/-- Witness for claim C8: with the default configuration the inbound
value abc-123 is propagated verbatim; with `trustIncoming = false` the
generator output is used although the inbound header is present. -/
theorem claim_C8_witness :
    c8Req.hdrLookup (jsToLower "X-Request-Id") = some (HVal.str "abc-123")
      ∧ requestIdRun ⟨"X-Request-Id", true, "id"⟩ "gen-1" c8Req ⟨[]⟩
        = (c8Req.setProp "id" (HVal.str "abc-123"),
           ResState.setHeader ⟨[]⟩ "X-Request-Id" (HVal.str "abc-123"), NextCall.nextOk)
      ∧ requestIdRun ⟨"X-Request-Id", false, "id"⟩ "gen-1" c8Req ⟨[]⟩
        = (c8Req.setProp "id" (HVal.str "gen-1"),
           ResState.setHeader ⟨[]⟩ "X-Request-Id" (HVal.str "gen-1"), NextCall.nextOk) := by
  have h1 := (claim_C8_correlation_id ⟨"X-Request-Id", true, "id"⟩ "gen-1" c8Req ⟨[]⟩).1
    rfl (HVal.str "abc-123") (by rfl)
  have h2 := (claim_C8_correlation_id ⟨"X-Request-Id", false, "id"⟩ "gen-1" c8Req ⟨[]⟩).2 rfl
  exact ⟨by rfl, h1, h2⟩

/-- Claim C9: the access-log interceptor continues immediately and
registers exactly one finish listener, so one record is emitted per
completed response; for any finish time not before the start and any
final status, the emitted record carries message tag "request", the
final status, a non-negative duration equal to the elapsed time, the
request method and url, and the resolved correlation id. -/
theorem claim_C9_access_log (header : String) (req : ReqCtx) (start finishTime : Int)
    (status : Nat) (hclock : start ≤ finishTime) :
    (logRequestsRun header req start).2 = NextCall.nextOk
      ∧ (logRequestsRun header req start).1.length = 1
      ∧ ∀ listener ∈ (logRequestsRun header req start).1,
          (listener finishTime status).2 = "request"
            ∧ (listener finishTime status).1.status = status
            ∧ (listener finishTime status).1.duration = finishTime - start
            ∧ 0 ≤ (listener finishTime status).1.duration
            ∧ (listener finishTime status).1.method = req.method
            ∧ (listener finishTime status).1.url = req.originalUrl.getD req.url
            ∧ (listener finishTime status).1.id
                = ((req.getProp "id") <|> readHeaderValue req header) := by
  refine ⟨rfl, rfl, ?_⟩
  intro listener hl
  simp only [logRequestsRun, List.mem_singleton] at hl
  subst hl
  exact ⟨rfl, rfl, rfl, by simpa [logFinishRecord] using sub_nonneg.mpr hclock, rfl, rfl, rfl⟩

/-- Request for the C9 witness: the correlation property is set and the
response terminates with the not-found status. -/
def c9Req : ReqCtx := ⟨[], [("id", HVal.str "rid-1")], "GET", "/missing", some "/missing"⟩

/-- Witness for claim C9: one listener is registered and, fired at time
105 for a request started at 100 with final status 404, it emits the
record with duration 5 and message tag "request". -/
theorem claim_C9_witness :
    (100 : Int) ≤ 105
      ∧ (logRequestsRun "X-Request-Id" c9Req 100).1.length = 1
      ∧ ∀ listener ∈ (logRequestsRun "X-Request-Id" c9Req 100).1,
          listener 105 404 = (⟨some (HVal.str "rid-1"), "GET", "/missing", 404, 5⟩, "request") := by
  have h := claim_C9_access_log "X-Request-Id" c9Req 100 105 404 (by norm_num)
  refine ⟨by norm_num, h.2.1, ?_⟩
  intro listener hl
  simp only [logRequestsRun, List.mem_singleton] at hl
  subst hl
  rfl

/-- The first character surviving `dropWhile p` fails `p`. -/
theorem dropWhile_head_not (p : Char → Bool) (l : List Char) (c : Char)
    (h : (l.dropWhile p).head? = some c) : p c = false := by
  induction l with
  | nil => simp [List.dropWhile] at h
  | cons a t ih =>
      rw [List.dropWhile_cons] at h
      by_cases ha : p a = true
      · exact ih (by simpa [ha] using h)
      · rw [if_neg ha] at h
        simp at h
        subst h
        simpa using ha

/-- A list whose boundary characters fail the whitespace class is its
own trim. -/
theorem dropWhile_eq_self_of_head (p : Char → Bool) (l : List Char)
    (h : ∀ c, l.head? = some c → p c = false) : l.dropWhile p = l := by
  cases l with
  | nil => rfl
  | cons a t =>
      have ha := h a rfl
      simp [List.dropWhile_cons, ha]

/-- The last character of a trimmed list is never whitespace. -/
theorem jsTrim_getLast_not_ws (l : List Char) (c : Char)
    (h : (jsTrim l).getLast? = some c) : wsChar c = false := by
  unfold jsTrim at h
  rw [List.getLast?_reverse] at h
  exact dropWhile_head_not wsChar _ c h

/-- Trimming is the identity on a list whose first and last characters
are not whitespace. -/
theorem jsTrim_eq_self (l : List Char)
    (h1 : ∀ c, l.head? = some c → wsChar c = false)
    (h2 : ∀ c, l.getLast? = some c → wsChar c = false) : jsTrim l = l := by
  unfold jsTrim
  rw [dropWhile_eq_self_of_head wsChar l h1]
  rw [dropWhile_eq_self_of_head wsChar l.reverse
    (fun c hc => h2 c (by rwa [List.head?_reverse] at hc))]
  exact List.reverse_reverse l

/-- Shape of a successful bearer match: six matched letters, then the
remainder with its leading whitespace run removed. -/
theorem stripBearer_shape (cs rest : List Char) (h : stripBearer cs = some rest) :
    ∃ c1 c2 c3 c4 c5 c6 rest0, cs = c1 :: c2 :: c3 :: c4 :: c5 :: c6 :: rest0
      ∧ rest = rest0.dropWhile wsChar := by
  unfold stripBearer at h
  split at h
  next c1 c2 c3 c4 c5 c6 rest0 =>
    split at h
    · split at h
      next c7 t7 =>
        split at h
        · injection h with h'
          exact ⟨c1, c2, c3, c4, c5, c6, c7 :: t7, rfl, h'.symm⟩
        · cases h
      next => cases h
    · cases h
  next => cases h

/-- The remainder of a bearer match on a list with no trailing
whitespace needs no further trimming: the extra `.trim()` in the source
is the identity there. -/
theorem stripBearer_rest_trim (cs rest : List Char)
    (hlast : ∀ c, cs.getLast? = some c → wsChar c = false)
    (h : stripBearer cs = some rest) : jsTrim rest = rest := by
  obtain ⟨c1, c2, c3, c4, c5, c6, rest0, hcs, hrest⟩ := stripBearer_shape cs rest h
  apply jsTrim_eq_self
  · intro c hc
    exact dropWhile_head_not wsChar rest0 c (by rwa [hrest] at hc)
  · intro c hc
    have hne : rest ≠ [] := by
      intro he
      rw [he] at hc
      cases hc
    obtain ⟨t, ht⟩ := List.dropWhile_suffix (l := rest0) wsChar
    have hr0 : rest0 = t ++ rest := by
      rw [hrest]
      exact ht.symm
    have hcs' : cs = ([c1, c2, c3, c4, c5, c6] ++ t) ++ rest := by
      rw [hcs, hr0]
      simp
    apply hlast c
    rw [hcs', List.getLast?_append_of_ne_nil _ hne]
    exact hc

/-- Claim C7: token extraction from the Authorization header — a missing
header yields no token; an empty or whitespace-only value yields no
token; a value whose trimmed form matches the case-insensitive bearer
prefix yields exactly the remainder after the prefix as the token; any
other non-blank value yields the entire trimmed value as the token. -/
theorem claim_C7_bearer_extraction :
    getTokenFromAuthHeader none = none
      ∧ (∀ s : String, jsTrim s.toList = [] → getTokenFromAuthHeader (some s) = none)
      ∧ (∀ s : String, ∀ rest : List Char, stripBearer (jsTrim s.toList) = some rest →
          getTokenFromAuthHeader (some s) = some (String.mk rest))
      ∧ (∀ s : String, jsTrim s.toList ≠ [] → stripBearer (jsTrim s.toList) = none →
          getTokenFromAuthHeader (some s) = some (String.mk (jsTrim s.toList))) := by
  refine ⟨rfl, ?_, ?_, ?_⟩
  · intro s hs
    by_cases he : s = ""
    · simp [getTokenFromAuthHeader, he]
    · have hs' : jsTrim s.data = [] := hs
      simp [getTokenFromAuthHeader, he, hs', stripBearer]
  · intro s rest h
    have he : ¬s = "" := by
      intro he
      subst he
      have hnone : stripBearer (jsTrim ("" : String).toList) = none := rfl
      rw [hnone] at h
      cases h
    have htrim : jsTrim rest = rest :=
      stripBearer_rest_trim (jsTrim s.toList) rest
        (fun c hc => jsTrim_getLast_not_ws s.toList c hc) h
    have h' : stripBearer (jsTrim s.data) = some rest := h
    simp [getTokenFromAuthHeader, he, h', htrim]
  · intro s hne hnone
    have he : ¬s = "" := by
      intro he
      subst he
      exact hne rfl
    have hn' : stripBearer (jsTrim s.data) = none := hnone
    have hlen : 0 < (jsTrim s.data).length := List.length_pos.mpr hne
    simp [getTokenFromAuthHeader, he, hn', hlen]

/-- Witness for claim C7 at concrete headers: a bearer credential with
extra spacing yields the remainder, a blank header yields no token, and
a bare non-bearer value is accepted whole. -/
theorem claim_C7_witness :
    stripBearer (jsTrim ("Bearer   abc".toList)) = some ("abc".toList)
      ∧ getTokenFromAuthHeader (some "Bearer   abc") = some "abc"
      ∧ jsTrim ("   ".toList) = []
      ∧ getTokenFromAuthHeader (some "   ") = none
      ∧ getTokenFromAuthHeader (some "sometoken") = some "sometoken" := by
  refine ⟨by decide, ?_, by decide, ?_, ?_⟩
  · have h := claim_C7_bearer_extraction.2.2.1 "Bearer   abc" ("abc".toList) (by decide)
    simpa using h
  · exact claim_C7_bearer_extraction.2.1 "   " (by decide)
  · have h := claim_C7_bearer_extraction.2.2.2 "sometoken" (by decide) (by decide)
    simpa using h

end FrameworkGuard
